import Mathlib

/- Verification of the experimental parallel geometry-union aggregate of
   PostGIS (postgis/lwgeom_union.c with postgis/lwgeom_union.h): a shallow
   embedding of the UnionState accumulator, the clustering reduction
   (sort_geoms followed by partial_union), and the transition / combine /
   serialize / deserialize / final SQL functions, together with proofs of the
   specified properties.

   The geometry engine (liblwgeom) and the C library qsort are external to the
   two source files; they are modelled from the specification, as documented on
   each modelled definition.  Machine doubles (float8) are modelled as
   rationals: the aggregate only stores them, compares them with 0 and hands
   them to the engine, so no floating-point rounding is observable in the
   verified properties. -/

namespace LwUnion

/-- A point of the plane, the carrier of the coverage semantics. -/
abbrev Pt := ℚ × ℚ

/-- Modelled from the spec: liblwgeom's GBOX, an axis-aligned min/max bounding
box ("axis-aligned min/max box").  Z and M ordinates play no role in the
verified properties and are omitted. -/
structure GBOX where
  xmin : ℚ
  xmax : ℚ
  ymin : ℚ
  ymax : ℚ
deriving DecidableEq

/-- Modelled from the spec: liblwgeom's gbox_overlaps, the BoundingBox
"overlap test" — two boxes overlap unless one lies strictly to the side of
the other. -/
def gbox_overlaps (g1 g2 : GBOX) : Bool :=
  !(decide (g1.xmax < g2.xmin) || decide (g1.ymax < g2.ymin) ||
    decide (g2.xmax < g1.xmin) || decide (g2.ymax < g1.ymin))

/-- Modelled from the spec: liblwgeom's gbox_merge, the BoundingBox "merge
(expand to cover)" — the first box is merged into the second. -/
def gbox_merge (new_box merge_box : GBOX) : GBOX :=
  { xmin := min merge_box.xmin new_box.xmin
    xmax := max merge_box.xmax new_box.xmax
    ymin := min merge_box.ymin new_box.ymin
    ymax := max merge_box.ymax new_box.ymax }

/-- Modelled from the spec: liblwgeom's gbox_get_sortable_hash, "a scalar
imposing a spatial-locality total order" derived from the box and the srid.
The verified properties depend only on it being a function of the box and the
srid into a linearly ordered scalar, so a simple center-plus-srid formula
stands in for the space-filling-curve hash. -/
def gbox_get_sortable_hash (box : GBOX) (srid : Int) : ℚ :=
  (box.xmin + box.xmax) / 2 + (box.ymin + box.ymax) / 2 + srid

/-- Modelled from the spec: an LWGEOM geometry value, "opaque value from the
geometry engine; carries spatial-reference id, optional lazily-computed
BoundingBox (absent for empty geometries)".  Its semantics for the coverage
properties is the (finite) set of plane points it covers. -/
structure LWGEOM where
  srid : Int
  bbox : Option GBOX
  coverage : Finset Pt
deriving DecidableEq

/-- Modelled from the spec: liblwgeom's lwgeom_get_bbox, the "bounding-box
accessor (lazy/cached, absent for empty geometries)"; it "can be NULL for
empty LWGEOM". -/
def lwgeom_get_bbox (g : LWGEOM) : Option GBOX :=
  g.bbox

/-- Modelled from the spec: liblwgeom's lwgeom_get_srid. -/
def lwgeom_get_srid (g : LWGEOM) : Int :=
  g.srid

/-- Modelled from the spec: an LWCOLLECTION, the ordered geometry sequence of
the accumulator, with the spatial-reference id established by its first
member.  Z/M dimensionality flags and the collection type tag play no role in
the verified properties and are omitted. -/
structure LWCOLLECTION where
  srid : Int
  geoms : List LWGEOM
deriving DecidableEq

/-- The union of the coverages of a geometry sequence. -/
def covUnion (l : List LWGEOM) : Finset Pt :=
  l.foldr (fun g acc => g.coverage ∪ acc) ∅

/-- Modelled from the spec: snapping one point to the precision grid ("linear
unit for coordinate snapping during union"). -/
def snapPoint (gridSize : ℚ) (p : Pt) : Pt :=
  (gridSize * round (p.1 / gridSize), gridSize * round (p.2 / gridSize))

/-- Modelled from the spec: the effect of the precision grid on a point set;
"gridSize ≤ 0 means unconstrained precision", i.e. no snapping. -/
def snapSet (gridSize : ℚ) (s : Finset Pt) : Finset Pt :=
  if 0 < gridSize then s.image (snapPoint gridSize) else s

/-- Merge an optional box into an optional running box: exactly the update the
sweep of partial_union performs, where an absent box leaves the running box
unchanged and an absent running box is initialized. -/
def merge_opt_bbox (bbox cur_bbox : Option GBOX) : Option GBOX :=
  match bbox, cur_bbox with
  | some b, some cb => some (gbox_merge cb b)
  | some b, none => some b
  | none, cb => cb

/-- Modelled from the spec: liblwgeom's lwgeom_unaryunion_prec, the opaque
"precision-aware union operation supplied by the geometry engine":
`unaryUnion(geometrySet, gridSize) → geometry` where `gridSize ≤ 0` means
unconstrained precision.  Its coverage is the grid-snapped union of the
members' coverages; its box covers the members' boxes. -/
def lwgeom_unaryunion_prec (col : LWCOLLECTION) (gridSize : ℚ) : LWGEOM :=
  { srid := col.srid
    bbox := col.geoms.foldr (fun g acc => merge_opt_bbox acc (lwgeom_get_bbox g)) none
    coverage := snapSet gridSize (covUnion col.geoms) }

/-- The comparator geom_cmp of lwgeom_union.c as INTENDED, not as shipped.
The C function is broken: sort_geoms hands qsort an array of LWGEOM*
(element size sizeof(LWGEOM*)), so qsort calls the comparator with pointers
to the slots, of type LWGEOM**, but geom_cmp casts its arguments straight to
const LWGEOM* without the needed dereference (lwgeom_union.c lines 448-449).
The shipped code therefore hashes reinterpreted pointer bytes as if they were
a geometry struct — undefined behavior that no value-level embedding can
express.  This definition embeds the function's evident intent, read off its
own body with the missing dereference added: compare the sortable hashes of
the two geometries' bounding boxes, and "ignore empty boxes" — if either
geometry has no box the comparator returns 0 (equal).  Claims that depend on
the comparator's output are settled as code_bug against this intent model. -/
def geom_cmp (g1 g2 : LWGEOM) : Int :=
  match lwgeom_get_bbox g1, lwgeom_get_bbox g2 with
  | some bbox1, some bbox2 =>
    let hash1 := gbox_get_sortable_hash bbox1 g1.srid
    let hash2 := gbox_get_sortable_hash bbox2 g2.srid
    if hash1 > hash2 then 1 else if hash1 < hash2 then -1 else 0
  | _, _ => 0

/-- The nondecreasing relation induced by geom_cmp (comparator result at most
zero), the order sort_geoms sorts by. -/
def geomLe (g1 g2 : LWGEOM) : Prop :=
  geom_cmp g1 g2 ≤ 0

instance : DecidableRel geomLe := fun g1 g2 =>
  inferInstanceAs (Decidable (geom_cmp g1 g2 ≤ 0))

/-- sort_geoms of lwgeom_union.c as INTENDED, not as shipped: sort the
collection in place with the C library qsort under comparator geom_cmp.
Modelled from the spec: qsort (not part of the repository) is modelled as a
comparison sort — insertion sort — driven by the comparator.  As documented
on geom_cmp, the shipped comparator misses the dereference of the LWGEOM**
slot pointers qsort passes it, so the program's actual sort keys are
reinterpreted pointer bytes (undefined behavior); this definition applies the
intended comparator to the geometry values themselves, and claims that rest
on the resulting order are settled as code_bug against it. -/
def sort_geoms (col : LWCOLLECTION) : LWCOLLECTION :=
  { col with geoms := col.geoms.insertionSort geomLe }

/-- The break test of the sweep loop of partial_union, lwgeom_union.c line
368/380: with `cur` the current element (none at the virtual end-of-sequence
pass) and `bbox` the running merged box, the C condition at a position i > 0 is
`!cur || (bbox && cur_bbox && !gbox_overlaps(bbox, cur_bbox))`. -/
def run_break (bbox : Option GBOX) (cur : Option LWGEOM) : Bool :=
  match cur with
  | none => true
  | some c =>
    match bbox, lwgeom_get_bbox c with
    | some b, some cb => !gbox_overlaps b cb
    | _, _ => false

/-- Flushing the current run `[j, i)` of partial_union into the result: a run
of more than one member is replaced by its grid-size-aware union, a run of one
member passes through unchanged.  (The C flattens a multi-part union result
into the output; the model's engine returns the union as one value, which
changes neither the coverage nor the break structure.) -/
def flush_run (srid : Int) (gridSize : ℚ) (run result : List LWGEOM) : List LWGEOM :=
  if 1 < run.length then
    result ++ [lwgeom_unaryunion_prec { srid := srid, geoms := run } gridSize]
  else
    result ++ run

/-- The sweep loop of partial_union (lwgeom_union.c lines 368-431), with the
slice `[j, i)` of the C carried explicitly as `run`: at each element either the
run breaks (run_break) and is flushed, the element seeding the next run with
its own box, or the element joins the run and its box (when present) is merged
into the running box.  The `input = []` case is the C's virtual pass at
`i = ngeoms`, which always flushes the last run. -/
def sweep (srid : Int) (gridSize : ℚ) (input run : List LWGEOM)
    (bbox : Option GBOX) (result : List LWGEOM) : List LWGEOM :=
  match input, run with
  | [], run => flush_run srid gridSize run result
  | cur :: rest, [] =>
    sweep srid gridSize rest [cur] (merge_opt_bbox bbox (lwgeom_get_bbox cur)) result
  | cur :: rest, hd :: tl =>
    if run_break bbox (some cur) then
      sweep srid gridSize rest [cur] (lwgeom_get_bbox cur)
        (flush_run srid gridSize (hd :: tl) result)
    else
      sweep srid gridSize rest ((hd :: tl) ++ [cur])
        (merge_opt_bbox bbox (lwgeom_get_bbox cur)) result

/-- partial_union of lwgeom_union.c: sweep the collection, merging each run of
consecutive geometries with overlapping boxes into one grid-size-aware partial
union, and return the new collection (the original is released). -/
def partial_union (col : LWCOLLECTION) (gridSize : ℚ) : LWCOLLECTION :=
  { srid := col.srid, geoms := sweep col.srid gridSize col.geoms [] none [] }

/-- The UnionState of lwgeom_union.h: the optional geometry collection, the
grid size (float8, sentinel -1.0 = unset) and the provenance flag isMerged. -/
structure UnionState where
  geoms : Option LWCOLLECTION
  gridSize : ℚ
  isMerged : Bool
deriving DecidableEq

/-- state_create / state_init of lwgeom_union.c: no geometries, grid size
-1.0, isMerged false. -/
def state_create : UnionState :=
  { geoms := none, gridSize := -1, isMerged := false }

/-- state_append of lwgeom_union.c: the first appended geometry establishes
the collection (and its srid), later ones are added at the end. -/
def state_append (state : UnionState) (geom : LWGEOM) : UnionState :=
  match state.geoms with
  | none =>
    { state with geoms := some { srid := lwgeom_get_srid geom, geoms := [geom] } }
  | some col =>
    { state with geoms := some { col with geoms := col.geoms ++ [geom] } }

/-- The serialized state: the grid-size field followed by the optional
geometry collection.  Modelled from the spec: the byte layout ("grid size:
8-byte double, then the engine-encoded geometry sequence"; for an empty state
"only the grid size field, zero geometries") is abstracted to the pair of the
two encoded fields, the engine's binary encode/decode being external and
faithful. -/
structure SerializedState where
  gridSize : ℚ
  geoms : Option LWCOLLECTION
deriving DecidableEq

/-- state_serialize of lwgeom_union.c: when the state has geometries and is
not already merged, sort them and reduce them with partial_union first; then
encode the grid size followed by the collection (or the grid size alone when
the state has no geometries). -/
def state_serialize (state : UnionState) : SerializedState :=
  match state.geoms with
  | some col =>
    let geoms :=
      if !state.isMerged then partial_union (sort_geoms col) state.gridSize else col
    { gridSize := state.gridSize, geoms := some geoms }
  | none => { gridSize := state.gridSize, geoms := none }

/-- state_deserialize of lwgeom_union.c: a fresh state (state_create) whose
grid size and optional collection are decoded from the payload; isMerged is
left as created (false) — the deserialfn wrapper sets it. -/
def state_deserialize (serialized : SerializedState) : UnionState :=
  { state_create with gridSize := serialized.gridSize, geoms := serialized.geoms }

/-- state_merge of lwgeom_union.c: concatenate state2's collection onto
state1's in place (state2's is released); when either side has no collection
the other side's collection is taken.  Neither gridSize nor isMerged of
state1 is touched. -/
def state_merge (state1 state2 : UnionState) : UnionState :=
  match state1.geoms, state2.geoms with
  | some geoms1, some geoms2 =>
    { state1 with geoms := some { geoms1 with geoms := geoms1.geoms ++ geoms2.geoms } }
  | some geoms1, none => { state1 with geoms := some geoms1 }
  | none, geoms2 => { state1 with geoms := geoms2 }

/-- pgis_test_geometry_union_transfn of lwgeom_union.c: on a null state a
fresh state is created; a positive grid-size argument overwrites the stored
grid size; a non-null geometry argument is (deep-copied and) appended.
Argument-type validation and the aggregate-context check are external. -/
def pgis_test_geometry_union_transfn (state : Option UnionState)
    (gser : Option LWGEOM) (gridSize : Option ℚ) : UnionState :=
  let st :=
    match state with
    | none => state_create
    | some s => s
  let st :=
    match gridSize with
    | some g => if 0 < g then { st with gridSize := g } else st
    | none => st
  match gser with
  | some geom => state_append st geom
  | none => st

/-- pgis_test_geometry_union_combinefn of lwgeom_union.c: when both states are
present the second is merged into the first; when only the second is present
it becomes the result; the result (when present) is marked isMerged. -/
def pgis_test_geometry_union_combinefn (state1 state2 : Option UnionState) :
    Option UnionState :=
  let merged :=
    match state1, state2 with
    | some s1, some s2 => some (state_merge s1 s2)
    | none, some s2 => some s2
    | s1, none => s1
  match merged with
  | some s => some { s with isMerged := true }
  | none => none

/-- pgis_test_geometry_union_serialfn of lwgeom_union.c: a null state is
replaced by a fresh one, then state_serialize encodes it. -/
def pgis_test_geometry_union_serialfn (state : Option UnionState) : SerializedState :=
  state_serialize
    (match state with
     | some s => s
     | none => state_create)

/-- pgis_test_geometry_union_deserialfn of lwgeom_union.c: decode the payload
with state_deserialize and set the fresh state's isMerged flag to true.  (A
null payload is an invalid-parameter error, external to the model.) -/
def pgis_test_geometry_union_deserialfn (serialized : SerializedState) : UnionState :=
  { state_deserialize serialized with isMerged := true }

/-- pgis_test_geometry_union_finalfn of lwgeom_union.c: a null state is an
invalid-parameter error; a state with no collection returns SQL NULL (the
noResult outcome); otherwise the grid-size-aware union of the whole collection
is returned. -/
def pgis_test_geometry_union_finalfn (state : Option UnionState) :
    Except String (Option LWGEOM) :=
  match state with
  | none => Except.error "Empty state value"
  | some st =>
    match st.geoms with
    | none => Except.ok none
    | some col => Except.ok (some (lwgeom_unaryunion_prec col st.gridSize))

/-- The coverage of the finalizer's outcome: none for the noResult outcome,
otherwise the point set covered by the returned union geometry.  This is the
observable the spec's "covers the same area" properties compare. -/
def finalizeCoverage (state : UnionState) : Option (Finset Pt) :=
  match state.geoms with
  | none => none
  | some col => some ((lwgeom_unaryunion_prec col state.gridSize).coverage)

/- Helper lemmas about the coverage semantics. -/

lemma covUnion_nil : covUnion [] = ∅ := rfl

lemma covUnion_cons (g : LWGEOM) (l : List LWGEOM) :
    covUnion (g :: l) = g.coverage ∪ covUnion l := rfl

lemma covUnion_append (l1 l2 : List LWGEOM) :
    covUnion (l1 ++ l2) = covUnion l1 ∪ covUnion l2 := by
  induction l1 with
  | nil => simp [covUnion_nil, covUnion]
  | cons g l ih => simp [covUnion_cons, ih, Finset.union_assoc]

lemma covUnion_perm {l l' : List LWGEOM} (h : l.Perm l') : covUnion l = covUnion l' := by
  induction h with
  | nil => rfl
  | cons x _ ih => simp [covUnion_cons, ih]
  | swap x y l =>
    simp [covUnion_cons, Finset.union_left_comm, Finset.union_comm, Finset.union_assoc]
  | trans _ _ ih1 ih2 => exact ih1.trans ih2

lemma snapSet_empty (g : ℚ) : snapSet g ∅ = ∅ := by
  unfold snapSet
  split <;> simp

lemma snapSet_union (g : ℚ) (s t : Finset Pt) :
    snapSet g (s ∪ t) = snapSet g s ∪ snapSet g t := by
  unfold snapSet
  split
  · exact Finset.image_union _ _
  · rfl

lemma snapPoint_idem (g : ℚ) (hg : g ≠ 0) (p : Pt) :
    snapPoint g (snapPoint g p) = snapPoint g p := by
  simp only [snapPoint, mul_div_cancel_left₀ _ hg, round_intCast]

lemma snapSet_idem (g : ℚ) (s : Finset Pt) : snapSet g (snapSet g s) = snapSet g s := by
  by_cases hg : 0 < g
  · simp only [snapSet, if_pos hg, Finset.image_image]
    exact Finset.image_congr fun p _ => snapPoint_idem g (ne_of_gt hg) p
  · simp only [snapSet, if_neg hg]

lemma unaryunion_coverage (col : LWCOLLECTION) (g : ℚ) :
    (lwgeom_unaryunion_prec col g).coverage = snapSet g (covUnion col.geoms) := rfl

/- Coverage preservation of the sweep. -/

lemma snap_cov_flush_run (srid : Int) (g : ℚ) (run result : List LWGEOM) :
    snapSet g (covUnion (flush_run srid g run result)) =
      snapSet g (covUnion result) ∪ snapSet g (covUnion run) := by
  unfold flush_run
  split
  · rw [covUnion_append, snapSet_union, covUnion_cons, covUnion_nil, Finset.union_empty,
      unaryunion_coverage, snapSet_idem]
  · rw [covUnion_append, snapSet_union]

lemma snap_cov_sweep (srid : Int) (g : ℚ) (input : List LWGEOM) :
    ∀ (run : List LWGEOM) (bbox : Option GBOX) (result : List LWGEOM),
      snapSet g (covUnion (sweep srid g input run bbox result)) =
        snapSet g (covUnion result) ∪
          (snapSet g (covUnion run) ∪ snapSet g (covUnion input)) := by
  induction input with
  | nil =>
    intro run bbox result
    rw [show sweep srid g [] run bbox result = flush_run srid g run result from rfl,
      snap_cov_flush_run]
    simp [covUnion_nil, snapSet_empty]
  | cons cur rest ih =>
    intro run bbox result
    match run with
    | [] =>
      rw [show sweep srid g (cur :: rest) [] bbox result =
            sweep srid g rest [cur] (merge_opt_bbox bbox (lwgeom_get_bbox cur)) result
          from rfl, ih]
      simp [covUnion_cons, covUnion_nil, snapSet_union, snapSet_empty,
        Finset.union_assoc]
    | hd :: tl =>
      rw [show sweep srid g (cur :: rest) (hd :: tl) bbox result =
            if run_break bbox (some cur) then
              sweep srid g rest [cur] (lwgeom_get_bbox cur)
                (flush_run srid g (hd :: tl) result)
            else
              sweep srid g rest ((hd :: tl) ++ [cur])
                (merge_opt_bbox bbox (lwgeom_get_bbox cur)) result
          from rfl]
      split
      · rw [ih, snap_cov_flush_run]
        simp [covUnion_cons, covUnion_nil, snapSet_union, snapSet_empty,
          Finset.union_assoc]
      · rw [ih, covUnion_append]
        simp [covUnion_cons, covUnion_nil, snapSet_union, snapSet_empty,
          Finset.union_assoc]

/-- The sweep leaves the grid-snapped total coverage of any permutation of a
collection unchanged: the central helper behind the coverage-preservation and
round-trip properties.  Stated for an arbitrary permutation so that it does
not depend on which order the sort produces. -/
lemma reduced_coverage_perm (col col' : LWCOLLECTION) (g : ℚ)
    (hperm : col'.geoms.Perm col.geoms) :
    (lwgeom_unaryunion_prec (partial_union col' g) g).coverage =
      (lwgeom_unaryunion_prec col g).coverage := by
  rw [unaryunion_coverage, unaryunion_coverage]
  show snapSet g (covUnion (sweep col'.srid g col'.geoms [] none []))
      = snapSet g (covUnion col.geoms)
  rw [snap_cov_sweep]
  simp only [covUnion_nil, snapSet_empty, Finset.empty_union, Finset.union_empty]
  exact congrArg (snapSet g) (covUnion_perm hperm)

/-- Reduction (the intended sort, then the sweep) leaves the grid-snapped
total coverage of a collection unchanged. -/
lemma reduced_coverage (col : LWCOLLECTION) (g : ℚ) :
    (lwgeom_unaryunion_prec (partial_union (sort_geoms col) g) g).coverage =
      (lwgeom_unaryunion_prec col g).coverage :=
  reduced_coverage_perm col (sort_geoms col) g
    (List.perm_insertionSort geomLe col.geoms)

/- Order lemmas for the comparator and the sort. -/

lemma geom_cmp_no_bbox (g1 g2 : LWGEOM)
    (h : lwgeom_get_bbox g1 = none ∨ lwgeom_get_bbox g2 = none) :
    geom_cmp g1 g2 = 0 := by
  unfold geom_cmp
  rcases h with h | h
  · rw [h]
  · rw [h]
    cases lwgeom_get_bbox g1 <;> rfl

lemma geomLe_hash (g1 g2 : LWGEOM) (b1 b2 : GBOX)
    (h1 : lwgeom_get_bbox g1 = some b1) (h2 : lwgeom_get_bbox g2 = some b2) :
    (geomLe g1 g2 ↔
      gbox_get_sortable_hash b1 g1.srid ≤ gbox_get_sortable_hash b2 g2.srid) := by
  unfold geomLe geom_cmp
  rw [h1, h2]
  simp only [gt_iff_lt]
  split
  · constructor
    · intro hc; exact absurd hc (by norm_num)
    · intro hc; exact absurd hc (not_le.mpr (by assumption))
  · split
    · constructor
      · intro _; exact le_of_lt (by assumption)
      · intro _; norm_num
    · constructor
      · intro _
        exact le_of_eq (le_antisymm (le_of_not_lt (by assumption))
          (le_of_not_lt (by assumption))).symm
      · intro _; norm_num

lemma geomLe_total (g1 g2 : LWGEOM) : geomLe g1 g2 ∨ geomLe g2 g1 := by
  cases h1 : lwgeom_get_bbox g1 with
  | none =>
    left
    unfold geomLe
    rw [geom_cmp_no_bbox g1 g2 (Or.inl h1)]
  | some b1 =>
    cases h2 : lwgeom_get_bbox g2 with
    | none =>
      left
      unfold geomLe
      rw [geom_cmp_no_bbox g1 g2 (Or.inr h2)]
    | some b2 =>
      rcases le_total (gbox_get_sortable_hash b1 g1.srid)
        (gbox_get_sortable_hash b2 g2.srid) with h | h
      · exact Or.inl ((geomLe_hash g1 g2 b1 b2 h1 h2).mpr h)
      · exact Or.inr ((geomLe_hash g2 g1 b2 b1 h2 h1).mpr h)

/-- Inserting into a comparator-chain-sorted list with a total (not
necessarily transitive) relation keeps it chain-sorted: the sortedness
guarantee a comparison sort gives under geom_cmp, whose "empty boxes compare
equal" makes the relation non-transitive. -/
lemma chain'_orderedInsert {α : Type} (r : α → α → Prop) [DecidableRel r]
    (tot : ∀ a b, r a b ∨ r b a) (a : α) :
    ∀ l : List α, l.Chain' r → (l.orderedInsert r a).Chain' r := by
  intro l
  induction l with
  | nil => intro _; simp [List.orderedInsert]
  | cons b l ih =>
    intro hc
    rw [List.orderedInsert]
    split
    · rw [List.chain'_cons]
      exact ⟨by assumption, hc⟩
    · rw [List.chain'_cons']
      refine ⟨?_, ih (List.chain'_cons'.mp hc).2⟩
      intro y hy
      cases l with
      | nil =>
        simp [List.orderedInsert] at hy
        subst hy
        exact (tot a b).resolve_left (by assumption)
      | cons c l' =>
        rw [List.orderedInsert] at hy
        split at hy
        · simp at hy
          subst hy
          exact (tot a b).resolve_left (by assumption)
        · simp at hy
          subst hy
          exact (List.chain'_cons.mp hc).1

lemma chain'_insertionSort {α : Type} (r : α → α → Prop) [DecidableRel r]
    (tot : ∀ a b, r a b ∨ r b a) :
    ∀ l : List α, (l.insertionSort r).Chain' r := by
  intro l
  induction l with
  | nil => simp [List.insertionSort]
  | cons a l ih =>
    rw [List.insertionSort]
    exact chain'_orderedInsert r tot a _ ih

/- An aggregation group's sequence of transition calls, for the grid-size
policy: each call carries the optional geometry argument and the optional
grid-size argument, the state argument being threaded (null on the first
call, as the executor does). -/

/-- Run a whole sequence of transition calls the way the aggregation executor
does: the first call receives a null state, each later call receives the
previous call's result. -/
def apply_transfn_calls (calls : List (Option LWGEOM × Option ℚ)) : Option UnionState :=
  calls.foldl (fun st c => some (pgis_test_geometry_union_transfn st c.1 c.2)) none

/-- The last positive grid-size value of a sequence of optional grid-size
arguments, none when no positive value occurs. -/
def last_positive_grid : List (Option ℚ) → Option ℚ
  | [] => none
  | g :: gs =>
    match last_positive_grid gs with
    | some v => some v
    | none =>
      match g with
      | some v => if 0 < v then some v else none
      | none => none

lemma state_append_gridSize (s : UnionState) (geom : LWGEOM) :
    (state_append s geom).gridSize = s.gridSize := by
  unfold state_append
  cases s.geoms <;> rfl

lemma state_append_isMerged (s : UnionState) (geom : LWGEOM) :
    (state_append s geom).isMerged = s.isMerged := by
  unfold state_append
  cases s.geoms <;> rfl

lemma transfn_gridSize (s : UnionState) (g : Option LWGEOM) (gs : Option ℚ) :
    (pgis_test_geometry_union_transfn (some s) g gs).gridSize =
      match gs with
      | some v => if 0 < v then v else s.gridSize
      | none => s.gridSize := by
  unfold pgis_test_geometry_union_transfn
  cases gs with
  | none => cases g <;> simp [state_append_gridSize]
  | some v =>
    by_cases hv : 0 < v <;> cases g <;> simp [hv, state_append_gridSize]

lemma transfn_none_gridSize (g : Option LWGEOM) (gs : Option ℚ) :
    (pgis_test_geometry_union_transfn none g gs).gridSize =
      match gs with
      | some v => if 0 < v then v else -1
      | none => -1 := by
  unfold pgis_test_geometry_union_transfn
  cases gs with
  | none => cases g <;> simp [state_append_gridSize, state_create]
  | some v =>
    by_cases hv : 0 < v <;> cases g <;> simp [hv, state_append_gridSize, state_create]

lemma transfn_foldl_gridSize (calls : List (Option LWGEOM × Option ℚ)) :
    ∀ s : UnionState,
      (calls.foldl (fun st c => pgis_test_geometry_union_transfn (some st) c.1 c.2)
          s).gridSize =
        (last_positive_grid (calls.map Prod.snd)).getD s.gridSize := by
  induction calls with
  | nil => intro s; simp [last_positive_grid]
  | cons c rest ih =>
    intro s
    rw [List.foldl_cons, ih]
    simp only [List.map_cons, last_positive_grid]
    cases hrest : last_positive_grid (rest.map Prod.snd) with
    | some v => simp
    | none =>
      simp only [Option.getD_none]
      rw [transfn_gridSize]
      cases c.2 with
      | none => simp
      | some v => by_cases hv : 0 < v <;> simp [hv]

lemma transfn_foldl_some (calls : List (Option LWGEOM × Option ℚ)) :
    ∀ s : UnionState,
      calls.foldl (fun st c => some (pgis_test_geometry_union_transfn st c.1 c.2))
          (some s) =
        some (calls.foldl
          (fun st c => pgis_test_geometry_union_transfn (some st) c.1 c.2) s) := by
  induction calls with
  | nil => intro s; rfl
  | cons c rest ih => intro s; rw [List.foldl_cons, List.foldl_cons, ih]

/- Concrete sample geometries used by counterexamples and witnesses. -/

/-- The unit square box. -/
def unitBox : GBOX := { xmin := 0, xmax := 1, ymin := 0, ymax := 1 }

/-- A box overlapping the unit square. -/
def shiftedBox : GBOX := { xmin := 0, xmax := 2, ymin := 0, ymax := 1 }

/-- A box disjoint from both of the above. -/
def farBox : GBOX := { xmin := 10, xmax := 11, ymin := 10, ymax := 11 }

/-- A sample geometry with the unit box. -/
def geomA : LWGEOM := { srid := 0, bbox := some unitBox, coverage := {((0:ℚ), (0:ℚ))} }

/-- A sample geometry whose box overlaps geomA's. -/
def geomB : LWGEOM := { srid := 0, bbox := some shiftedBox, coverage := {((2:ℚ), (0:ℚ))} }

/-- A sample geometry far away from geomA and geomB. -/
def geomFar : LWGEOM := { srid := 0, bbox := some farBox, coverage := {((10:ℚ), (10:ℚ))} }

/-- An empty sample geometry: no bounding box, empty coverage. -/
def geomEmpty : LWGEOM := { srid := 0, bbox := none, coverage := ∅ }

/-- A sample two-element collection. -/
def sampleCol : LWCOLLECTION := { srid := 0, geoms := [geomA, geomB] }

/- The claims. -/

/-- Claim C1, counterexample: in the partial_union sweep an element that has
no bounding box does NOT end the current run, contrary to the claim.  With a
running merged box present and the current element lacking a box, the break
condition of lwgeom_union.c line 380 evaluates to false, and on the concrete
sequence [geomA, geomEmpty, geomB] the whole sequence is absorbed into one
run (one output entry), where the claim's reading would have the empty
element end the run after geomA. -/
theorem run_break_no_bbox_cex :
    run_break (some unitBox) (some geomEmpty) = false ∧
    lwgeom_get_bbox geomEmpty = none ∧
    (partial_union { srid := 0, geoms := [geomA, geomEmpty, geomB] } (-1)).geoms.length
      = 1 := by
  refine ⟨rfl, rfl, ?_⟩
  decide

/-- Claim C1 (amended): in the partial_union sweep, for every position i > 0
the current run ends exactly when the element is absent (end of sequence), or
when both the running merged box and the element's bounding box are present
and fail to overlap.  An element with no bounding box never ends the run — it
is absorbed into it (the C's "NOTE: merging empty geoms") — and an element
with a box does not end the run while the running box is absent. -/
theorem run_break_characterization (bbox : Option GBOX) (cur : Option LWGEOM) :
    run_break bbox cur = true ↔
      (cur = none ∨
        ∃ c b cb, cur = some c ∧ bbox = some b ∧ lwgeom_get_bbox c = some cb ∧
          gbox_overlaps b cb = false) := by
  cases cur with
  | none => simp [run_break]
  | some c =>
    cases bbox with
    | none => simp [run_break]
    | some b =>
      cases hcb : lwgeom_get_bbox c with
      | none => simp [run_break, hcb]
      | some cb => simp [run_break, hcb]

/-- Claim C2, counterexample: combine does not take the grid size from the
second state when the first state is present.  With state A's grid size unset
(-1) and state B's grid size 5 (positive), the combined state's grid size is
-1, not 5: state_merge never touches gridSize. -/
theorem combinefn_drops_second_gridSize_cex :
    (pgis_test_geometry_union_combinefn
        (some { geoms := none, gridSize := -1, isMerged := false })
        (some { geoms := none, gridSize := 5, isMerged := false })).map
      UnionState.gridSize = some (-1) ∧
    (0:ℚ) < 5 ∧ (-1:ℚ) ≠ (5:ℚ) := by
  refine ⟨rfl, by norm_num, by norm_num⟩

/-- Claim C2 (amended): when both states are present, combine keeps the first
state's grid size unconditionally (the second state's grid size is discarded,
whether set or not); the second state's grid size survives only when the
first state is absent, in which case the second state itself becomes the
result. -/
theorem combinefn_gridSize_first (a b : UnionState) :
    pgis_test_geometry_union_combinefn (some a) (some b) =
      some { state_merge a b with isMerged := true } ∧
    (state_merge a b).gridSize = a.gridSize ∧
    pgis_test_geometry_union_combinefn none (some b) =
      some { b with isMerged := true } := by
  refine ⟨rfl, ?_, rfl⟩
  unfold state_merge
  cases a.geoms <;> cases b.geoms <;> rfl

/-- Claim C3, code_bug evidence: the claim is the evident intent of the code,
and the intent model satisfies it, but the shipped code does not implement
it.  The C comparator misses the dereference of the LWGEOM** slot pointers
qsort passes it (lwgeom_union.c lines 448-449), so the program sorts by
reinterpreted pointer bytes (undefined behavior), not by the geometries'
hashes.  This theorem records what the claim demands of the intended
comparator — exactly what the missing dereference would restore: the output
is a permutation of the input, consecutive elements are nondecreasing under
geom_cmp, and geom_cmp orders by sortableHash(bbox, srid), every geometry
lacking a bounding box comparing as equal (comparator 0) to every other
geometry. -/
theorem sort_geoms_intended_spec (col : LWCOLLECTION) :
    ((sort_geoms col).geoms.Perm col.geoms) ∧
    ((sort_geoms col).geoms.Chain' geomLe) ∧
    (∀ g1 g2 : LWGEOM,
      lwgeom_get_bbox g1 = none ∨ lwgeom_get_bbox g2 = none → geom_cmp g1 g2 = 0) ∧
    (∀ (g1 g2 : LWGEOM) (b1 b2 : GBOX),
      lwgeom_get_bbox g1 = some b1 → lwgeom_get_bbox g2 = some b2 →
      (geomLe g1 g2 ↔
        gbox_get_sortable_hash b1 g1.srid ≤ gbox_get_sortable_hash b2 g2.srid)) :=
  ⟨List.perm_insertionSort geomLe col.geoms,
   chain'_insertionSort geomLe geomLe_total col.geoms,
   geom_cmp_no_bbox,
   geomLe_hash⟩

/-- Claim C3, witness: concrete instances of sort_geoms_intended_spec at the
failing input [geomB, geomA] — a concrete permutation, the comparator
returning 0 against a boxless geometry, and the comparator agreeing with the
hash order on two boxed geometries. -/
theorem sort_geoms_intended_spec_witness :
    (sort_geoms { srid := 0, geoms := [geomB, geomA] }).geoms.Perm [geomB, geomA] ∧
    geom_cmp geomEmpty geomA = 0 ∧
    (geomLe geomA geomB ↔
      gbox_get_sortable_hash unitBox 0 ≤ gbox_get_sortable_hash shiftedBox 0) :=
  ⟨(sort_geoms_intended_spec { srid := 0, geoms := [geomB, geomA] }).1,
   (sort_geoms_intended_spec { srid := 0, geoms := [geomB, geomA] }).2.2.1 geomEmpty
     geomA (Or.inl rfl),
   (sort_geoms_intended_spec { srid := 0, geoms := [geomB, geomA] }).2.2.2 geomA geomB
     unitBox shiftedBox rfl rfl⟩

/-- Claim C4, code_bug evidence: reduction as the program intends it is
coverage-preserving, and the property does not even depend on which order the
sort step produces — finalizing partial_union of ANY permutation of the
sequence at grid size g yields the same coverage as finalizing the original
sequence at g.  In the shipped program, however, the reduction's sort step
runs qsort with the broken comparator (missing LWGEOM** dereference,
lwgeom_union.c line 448, undefined behavior), so the program itself does not
guarantee the claimed equality; this theorem shows the missing dereference is
the sole obstruction, since any honest reordering preserves coverage. -/
theorem partial_union_coverage_preserving (col col' : LWCOLLECTION) (g : ℚ)
    (hperm : col'.geoms.Perm col.geoms) :
    finalizeCoverage
        { geoms := some (partial_union col' g), gridSize := g, isMerged := true } =
      finalizeCoverage { geoms := some col, gridSize := g, isMerged := false } :=
  congrArg some (reduced_coverage_perm col col' g hperm)

/-- Claim C4, witness: a concrete instance of
partial_union_coverage_preserving at the failing input — the two-element
sequence [geomA, geomB] reduced in the swapped order. -/
theorem partial_union_coverage_preserving_witness :
    finalizeCoverage
        { geoms := some (partial_union { srid := 0, geoms := [geomB, geomA] } (-1)),
          gridSize := -1, isMerged := true } =
      finalizeCoverage
        { geoms := some { srid := 0, geoms := [geomA, geomB] }, gridSize := -1,
          isMerged := false } :=
  partial_union_coverage_preserving { srid := 0, geoms := [geomA, geomB] }
    { srid := 0, geoms := [geomB, geomA] } (-1) (List.Perm.swap geomA geomB [])

/-- Claim C5, code_bug evidence: under the intended comparator the
serialize/deserialize round trip finalizes to the same coverage as the
original state and preserves the grid size, for every state.  The shipped
program does not provide this contract: for an unmerged state with at least
two geometries, state_serialize first runs sort_geoms, whose qsort comparator
misses the LWGEOM** dereference (lwgeom_union.c line 448) — undefined
behavior — so deserialize(serialize(s)) has no defined value there.  The
claim is the spec's stated round-trip contract, i.e. the intent. -/
theorem roundtrip_coverage (s : UnionState) :
    finalizeCoverage (state_deserialize (state_serialize s)) = finalizeCoverage s ∧
    (state_deserialize (state_serialize s)).gridSize = s.gridSize := by
  constructor
  · cases hg : s.geoms with
    | none =>
      simp [state_serialize, state_deserialize, finalizeCoverage, hg, state_create]
    | some col =>
      cases hm : s.isMerged with
      | false =>
        simp only [state_serialize, state_deserialize, finalizeCoverage, hg, hm,
          state_create, Bool.not_false, if_pos]
        exact congrArg some (reduced_coverage col s.gridSize)
      | true =>
        simp [state_serialize, state_deserialize, finalizeCoverage, hg, hm, state_create]
  · cases hg : s.geoms <;> simp [state_serialize, state_deserialize, state_create, hg]

/-- Claim C6: serialize runs the clustering reduction exactly when the state
is non-empty and its isMerged flag is false (a merged non-empty state's
collection is encoded unchanged), an empty state's payload holds only the
grid-size field, and the deserialize wrapper always marks the fresh state
isMerged. -/
theorem serialize_reduction_policy (s : UnionState) (col : LWCOLLECTION)
    (b : SerializedState) :
    (s.geoms = some col → s.isMerged = false →
      (state_serialize s).geoms =
        some (partial_union (sort_geoms col) s.gridSize)) ∧
    (s.geoms = some col → s.isMerged = true → (state_serialize s).geoms = some col) ∧
    (s.geoms = none →
      state_serialize s = { gridSize := s.gridSize, geoms := none }) ∧
    (pgis_test_geometry_union_deserialfn b).isMerged = true := by
  refine ⟨?_, ?_, ?_, rfl⟩
  · intro hg hm
    simp [state_serialize, hg, hm]
  · intro hg hm
    simp [state_serialize, hg, hm]
  · intro hg
    simp [state_serialize, hg]

/-- Claim C6, witness: concrete instances of serialize_reduction_policy for an
unmerged non-empty state, a merged non-empty state, an empty state, and a
deserialized payload. -/
theorem serialize_reduction_policy_witness :
    (state_serialize { geoms := some sampleCol, gridSize := -1, isMerged := false }).geoms
      = some (partial_union (sort_geoms sampleCol) (-1)) ∧
    (state_serialize { geoms := some sampleCol, gridSize := -1, isMerged := true }).geoms
      = some sampleCol ∧
    state_serialize { geoms := none, gridSize := 5, isMerged := true } =
      { gridSize := 5, geoms := none } ∧
    (pgis_test_geometry_union_deserialfn { gridSize := 7, geoms := none }).isMerged
      = true :=
  ⟨(serialize_reduction_policy
      { geoms := some sampleCol, gridSize := -1, isMerged := false } sampleCol
      { gridSize := 7, geoms := none }).1 rfl rfl,
   (serialize_reduction_policy
      { geoms := some sampleCol, gridSize := -1, isMerged := true } sampleCol
      { gridSize := 7, geoms := none }).2.1 rfl rfl,
   (serialize_reduction_policy
      { geoms := none, gridSize := 5, isMerged := true } sampleCol
      { gridSize := 7, geoms := none }).2.2.1 rfl,
   (serialize_reduction_policy
      { geoms := none, gridSize := 5, isMerged := true } sampleCol
      { gridSize := 7, geoms := none }).2.2.2⟩

/-- Claim C7: the finalizer returns the defined noResult outcome (SQL NULL,
neither a geometry nor an error) on a state holding no geometries, and the
grid-size-aware full union of the state's current sequence otherwise. -/
theorem finalfn_spec (s : UnionState) :
    (s.geoms = none → pgis_test_geometry_union_finalfn (some s) = Except.ok none) ∧
    (∀ col, s.geoms = some col →
      pgis_test_geometry_union_finalfn (some s) =
        Except.ok (some (lwgeom_unaryunion_prec col s.gridSize))) := by
  constructor
  · intro h
    simp [pgis_test_geometry_union_finalfn, h]
  · intro col h
    simp [pgis_test_geometry_union_finalfn, h]

/-- Claim C7, witness: concrete instances of finalfn_spec — the empty state
created at group start finalizes to the noResult outcome, and a state holding
sampleCol finalizes to its union. -/
theorem finalfn_spec_witness :
    pgis_test_geometry_union_finalfn (some state_create) = Except.ok none ∧
    pgis_test_geometry_union_finalfn
        (some { geoms := some sampleCol, gridSize := 5, isMerged := false }) =
      Except.ok (some (lwgeom_unaryunion_prec sampleCol 5)) :=
  ⟨(finalfn_spec state_create).1 rfl,
   (finalfn_spec { geoms := some sampleCol, gridSize := 5, isMerged := false }).2
     sampleCol rfl⟩

/-- Claim C8: over any non-empty sequence of transition calls started from a
null state, the resulting state's grid size is the last positive grid-size
argument supplied, and -1 (the unset sentinel) when no positive value was
supplied: non-positive and absent grid-size arguments leave the stored value
untouched. -/
theorem transfn_last_positive_wins (calls : List (Option LWGEOM × Option ℚ))
    (st : UnionState) (h : apply_transfn_calls calls = some st) :
    st.gridSize = (last_positive_grid (calls.map Prod.snd)).getD (-1) := by
  cases calls with
  | nil => simp [apply_transfn_calls] at h
  | cons c rest =>
    unfold apply_transfn_calls at h
    rw [List.foldl_cons] at h
    rw [transfn_foldl_some] at h
    obtain rfl := (Option.some.injEq _ _ ▸ h).symm
    rw [transfn_foldl_gridSize, transfn_none_gridSize]
    simp only [List.map_cons, last_positive_grid]
    cases hrest : last_positive_grid (rest.map Prod.snd) with
    | some v => simp
    | none =>
      cases c.2 with
      | none => simp
      | some v => by_cases hv : 0 < v <;> simp [hv]

/-- Claim C8, witness: the concrete call sequences of the specification —
grid-size arguments 5, -1, 0 yield effective grid size 5; arguments 5, 10
yield 10 (the stated right-hand sides evaluate to 5 and to 10). -/
theorem transfn_last_positive_wins_witness :
    (({ geoms := none, gridSize := 5, isMerged := false } : UnionState).gridSize =
      (last_positive_grid
        ([((none : Option LWGEOM), some (5:ℚ)), (none, some (-1)), (none, some 0)].map
          Prod.snd)).getD (-1)) ∧
    (({ geoms := none, gridSize := 10, isMerged := false } : UnionState).gridSize =
      (last_positive_grid
        ([((none : Option LWGEOM), some (5:ℚ)), (none, some 10)].map
          Prod.snd)).getD (-1)) :=
  ⟨transfn_last_positive_wins _ _ (by decide),
   transfn_last_positive_wins _ _ (by decide)⟩

/-- Claim C9: combining a non-null state with an absent second state returns
the same state — geometry sequence and grid size unchanged — but still sets
isMerged to true, so a following serialize encodes the collection without
running the clustering reduction. -/
theorem combinefn_null_second_frame (s : UnionState) :
    pgis_test_geometry_union_combinefn (some s) none =
      some { s with isMerged := true } ∧
    (∀ col, s.geoms = some col →
      (state_serialize { s with isMerged := true }).geoms = some col) := by
  refine ⟨rfl, ?_⟩
  intro col h
  simp [state_serialize, h]

/-- Claim C9, witness: a concrete instance of combinefn_null_second_frame on a
state holding sampleCol. -/
theorem combinefn_null_second_frame_witness :
    pgis_test_geometry_union_combinefn
        (some { geoms := some sampleCol, gridSize := 5, isMerged := false }) none =
      some { geoms := some sampleCol, gridSize := 5, isMerged := true } ∧
    (state_serialize { geoms := some sampleCol, gridSize := 5, isMerged := true }).geoms
      = some sampleCol :=
  ⟨(combinefn_null_second_frame
      { geoms := some sampleCol, gridSize := 5, isMerged := false }).1,
   (combinefn_null_second_frame
      { geoms := some sampleCol, gridSize := 5, isMerged := false }).2 sampleCol rfl⟩

/-- Claim C10: a transition call whose geometry argument is null leaves the
state's geometry sequence unchanged, while a positive grid-size argument on
that same call still overwrites the stored grid size. -/
theorem transfn_null_geom_frame (s : UnionState) (g : ℚ) (h : 0 < g) :
    (pgis_test_geometry_union_transfn (some s) none (some g)).geoms = s.geoms ∧
    (pgis_test_geometry_union_transfn (some s) none (some g)).gridSize = g := by
  unfold pgis_test_geometry_union_transfn
  simp [h]

/-- Claim C10, witness: a concrete instance of transfn_null_geom_frame — a
null-geometry call with grid size 5 on a state holding sampleCol at grid size
-1. -/
theorem transfn_null_geom_frame_witness :
    (0:ℚ) < 5 ∧
    (pgis_test_geometry_union_transfn
        (some { geoms := some sampleCol, gridSize := -1, isMerged := false })
        none (some 5)).geoms = some sampleCol ∧
    (pgis_test_geometry_union_transfn
        (some { geoms := some sampleCol, gridSize := -1, isMerged := false })
        none (some 5)).gridSize = 5 :=
  ⟨by norm_num,
   (transfn_null_geom_frame
      { geoms := some sampleCol, gridSize := -1, isMerged := false } 5
      (by norm_num)).1,
   (transfn_null_geom_frame
      { geoms := some sampleCol, gridSize := -1, isMerged := false } 5
      (by norm_num)).2⟩

end LwUnion
